import Mathlib

/-!
Verification of the oxide credential/token core.

Shallow embedding of `src/sentry/src/token.rs` (audience encryption,
token generation, validator construction) and `src/src/rate_limit.rs`
(leaky-bucket admission filter), with the external crates that the core
delegates to (`magic_crypt`, `asap`, `ratelimit_meter`) modelled from the
specification where their code is not part of this repository.

Machine integers are modelled as `Nat`/`Int`; a Rust `panic!`/`unwrap()`
on a missing value is modelled as `Option.none` in the result type.
-/

namespace Oxide

/-! ## Base64 (standard alphabet)

Modelled from the spec: the base64 codec used by the external `magic_crypt`
crate ("returns a base64 (standard alphabet) encoding of the ciphertext",
spec 4.2).  Bytes are `Nat` values below 256. -/

/-- The 64 characters of the standard base64 alphabet, in index order. -/
def b64alphabet : List Char :=
  "ABCDEFGHIJKLMNOPQRSTUVWXYZabcdefghijklmnopqrstuvwxyz0123456789+/".data

/-- Character of a sextet value (values ≥ 64 never arise from the encoder). -/
def b64char (n : Nat) : Char :=
  b64alphabet.getD n '?'

/-- Sextet value of an alphabet character, `none` for a non-alphabet one. -/
def b64index (c : Char) : Option Nat :=
  b64alphabet.findIdx? (fun x => x == c)

/-- Standard base64 encoding of a byte list: chunks of three bytes become
four sextet characters, with `=` padding for a short final chunk. -/
def b64encodeBytes : List Nat → List Char
  | [] => []
  | [a] => [b64char (a / 4), b64char (a % 4 * 16), '=', '=']
  | [a, b] => [b64char (a / 4), b64char (a % 4 * 16 + b / 16),
      b64char (b % 16 * 4), '=']
  | a :: b :: c :: rest =>
      b64char (a / 4) :: b64char (a % 4 * 16 + b / 16) ::
      b64char (b % 16 * 4 + c / 64) :: b64char (c % 64) :: b64encodeBytes rest

/-- Standard base64 decoding: `none` on any input that is not well-formed
base64 (wrong length, character outside the alphabet, interior or
non-canonical padding). -/
def b64decodeChars : List Char → Option (List Nat)
  | [] => some []
  | c1 :: c2 :: c3 :: c4 :: rest =>
    match b64index c1, b64index c2 with
    | some x, some y =>
      if c3 = '=' then
        if c4 = '=' ∧ rest = [] ∧ y % 16 = 0 then some [x * 4 + y / 16]
        else none
      else
        match b64index c3 with
        | some z =>
          if c4 = '=' then
            if rest = [] ∧ z % 4 = 0 then
              some [x * 4 + y / 16, y % 16 * 16 + z / 4]
            else none
          else
            match b64index c4 with
            | some w =>
              (b64decodeChars rest).map
                (fun tl => (x * 4 + y / 16) :: (y % 16 * 16 + z / 4) ::
                  (z % 4 * 64 + w) :: tl)
            | none => none
        | none => none
    | _, _ => none
  | _ => none

theorem b64index_b64char : ∀ n, n < 64 → b64index (b64char n) = some n := by
  decide

theorem b64char_ne_eq : ∀ n, n < 64 → b64char n ≠ '=' := by
  decide

/-- Decoding is a left inverse of encoding on genuine byte lists. -/
theorem b64decode_b64encode (bs : List Nat) (h : ∀ b ∈ bs, b < 256) :
    b64decodeChars (b64encodeBytes bs) = some bs := by
  induction bs using b64encodeBytes.induct with
  | case1 => rfl
  | case2 a =>
      have ha : a < 256 := h a (by simp)
      have h1 := b64index_b64char (a / 4) (by omega)
      have h2 := b64index_b64char (a % 4 * 16) (by omega)
      simp [b64encodeBytes, b64decodeChars, h1, h2]
      omega
  | case3 a b =>
      have ha : a < 256 := h a (by simp)
      have hb : b < 256 := h b (by simp)
      have h1 := b64index_b64char (a / 4) (by omega)
      have h2 := b64index_b64char (a % 4 * 16 + b / 16) (by omega)
      have h3 := b64index_b64char (b % 16 * 4) (by omega)
      have h3ne := b64char_ne_eq (b % 16 * 4) (by omega)
      simp [b64encodeBytes, b64decodeChars, h1, h2, h3, h3ne]
      constructor <;> omega
  | case4 a b c rest ih =>
      have ha : a < 256 := h a (by simp)
      have hb : b < 256 := h b (by simp)
      have hc : c < 256 := h c (by simp)
      have hrest : ∀ x ∈ rest, x < 256 := fun x hx => h x (by simp [hx])
      have h1 := b64index_b64char (a / 4) (by omega)
      have h2 := b64index_b64char (a % 4 * 16 + b / 16) (by omega)
      have h3 := b64index_b64char (b % 16 * 4 + c / 64) (by omega)
      have h4 := b64index_b64char (c % 64) (by omega)
      have h3ne := b64char_ne_eq (b % 16 * 4 + c / 64) (by omega)
      have h4ne := b64char_ne_eq (c % 64) (by omega)
      simp [b64encodeBytes, b64decodeChars, h1, h2, h3, h4, h3ne, h4ne,
        ih hrest]
      refine ⟨by omega, by omega, by omega⟩

/-! ## Block padding

Modelled from the spec: the external `magic_crypt` crate applies a 256-bit
block cipher in a deterministic mode (spec 4.2), which pads its input to a
whole number of 16-byte blocks and rejects, on decryption, any byte string
whose padding is malformed ("the ciphertext is not valid for the key"). -/

/-- PKCS7 padding to a 16-byte block multiple: append `p` copies of `p`,
where `p` is the distance to the next block boundary (1 ≤ p ≤ 16). -/
def pkcs7pad (bs : List Nat) : List Nat :=
  let p := 16 - bs.length % 16
  bs ++ List.replicate p p

/-- PKCS7 unpadding: `none` when the length is zero or not a block
multiple, or when the trailing padding bytes are inconsistent. -/
def pkcs7unpad (bs : List Nat) : Option (List Nat) :=
  let p := bs.getLastD 0
  if bs.length = 0 then none
  else if bs.length % 16 ≠ 0 then none
  else if p = 0 then none
  else if 16 < p then none
  else if bs.length < p then none
  else if bs.drop (bs.length - p) = List.replicate p p then
    some (bs.take (bs.length - p))
  else none

/-- Unpadding removes an appended well-formed padding block. -/
theorem pkcs7unpad_append_replicate (bs : List Nat) (p : Nat)
    (h1 : 1 ≤ p) (h16 : p ≤ 16) (hmod : (bs.length + p) % 16 = 0) :
    pkcs7unpad (bs ++ List.replicate p p) = some bs := by
  obtain ⟨q, rfl⟩ : ∃ q, p = q + 1 := ⟨p - 1, by omega⟩
  have hlen : (bs ++ List.replicate (q + 1) (q + 1)).length =
      bs.length + (q + 1) := by simp
  have hlast : (bs ++ List.replicate (q + 1) (q + 1)).getLastD 0 = q + 1 := by
    rw [List.replicate_succ', ← List.append_assoc]
    simp
  have hdrop : (bs ++ List.replicate (q + 1) (q + 1)).drop
      ((bs ++ List.replicate (q + 1) (q + 1)).length - (q + 1)) =
      List.replicate (q + 1) (q + 1) := by
    rw [hlen, show bs.length + (q + 1) - (q + 1) = bs.length from by omega]
    exact List.drop_left' rfl
  have htake : (bs ++ List.replicate (q + 1) (q + 1)).take
      ((bs ++ List.replicate (q + 1) (q + 1)).length - (q + 1)) = bs := by
    rw [hlen, show bs.length + (q + 1) - (q + 1) = bs.length from by omega]
    exact List.take_left' rfl
  rw [pkcs7unpad]
  simp only [hlast, hlen]
  rw [if_neg (by omega), if_neg (by omega), if_neg (by omega),
    if_neg (by omega), if_neg (by omega)]
  rw [show bs.length + (q + 1) - (q + 1) = bs.length from by omega]
  rw [show (bs ++ List.replicate (q + 1) (q + 1)).drop bs.length =
      List.replicate (q + 1) (q + 1) from List.drop_left' rfl]
  rw [if_pos rfl]
  rw [show (bs ++ List.replicate (q + 1) (q + 1)).take bs.length = bs from
    List.take_left' rfl]

/-- Unpadding is a left inverse of padding. -/
theorem pkcs7unpad_pkcs7pad (bs : List Nat) :
    pkcs7unpad (pkcs7pad bs) = some bs := by
  rw [pkcs7pad]
  exact pkcs7unpad_append_replicate bs _ (by omega) (by omega) (by omega)

/-! ## Audience cipher

Modelled from the spec: `magic_crypt`'s 256-bit symmetric cipher (an
external crate), abstracted to a key-derived byte substitution applied
after PKCS7 padding — deterministic, key-dependent, with ciphertext
transported as standard base64 text, exactly the interface spec 4.2
ascribes to the source's choice.  The block-cipher core itself is an
external primitive out of this repository's scope. -/

/-- Single byte derived from the passphrase; stands for the key schedule. -/
def keyByte (key : String) : Nat :=
  (key.data.map Char.toNat).sum % 256

/-- Keyed byte substitution used in place of the AES core. -/
def encByte (k b : Nat) : Nat := (b + k) % 256

/-- Inverse byte substitution. -/
def decByte (k b : Nat) : Nat := (b + (256 - k % 256)) % 256

theorem decByte_encByte (k b : Nat) (hb : b < 256) :
    decByte k (encByte k b) = b := by
  simp only [decByte, encByte]
  omega

/-- Modelled from the spec: `magic_crypt::MagicCrypt::encrypt_str_to_base64`
(external crate) — pad the plaintext bytes, apply the keyed cipher, and
return the base64 text of the ciphertext. -/
def magic_encrypt_str_to_base64 (key plaintext : String) : String :=
  String.mk (b64encodeBytes
    ((pkcs7pad (plaintext.data.map Char.toNat)).map (encByte (keyByte key))))

/-- Modelled from the spec: `magic_crypt::MagicCrypt::decrypt_base64_to_string`
(external crate) — `none` when base64 decoding fails or the decrypted
bytes carry invalid padding, otherwise the recovered plaintext. -/
def magic_decrypt_base64_to_string (key ciphertext_b64 : String) :
    Option String :=
  (b64decodeChars ciphertext_b64.data).bind (fun ct =>
    (pkcs7unpad (ct.map (decByte (keyByte key)))).map (fun bs =>
      String.mk (bs.map Char.ofNat)))

/-- Cipher round trip for byte-sized plaintext characters. -/
theorem magic_roundtrip (key s : String)
    (hs : ∀ c ∈ s.data, c.toNat < 256) :
    magic_decrypt_base64_to_string key (magic_encrypt_str_to_base64 key s) =
      some s := by
  have hpadded : ∀ b ∈ pkcs7pad (s.data.map Char.toNat), b < 256 := by
    intro b hb
    rcases List.mem_append.mp hb with h | h
    · rcases List.mem_map.mp h with ⟨c, hc, rfl⟩
      exact hs c hc
    · have := List.eq_of_mem_replicate h
      omega
  have hct : ∀ b ∈ (pkcs7pad (s.data.map Char.toNat)).map
      (encByte (keyByte key)), b < 256 := by
    intro b hb
    rcases List.mem_map.mp hb with ⟨x, _, rfl⟩
    exact Nat.mod_lt _ (by omega)
  rw [magic_decrypt_base64_to_string, magic_encrypt_str_to_base64]
  rw [show (String.mk (b64encodeBytes ((pkcs7pad (s.data.map Char.toNat)).map
      (encByte (keyByte key))))).data = b64encodeBytes
      ((pkcs7pad (s.data.map Char.toNat)).map (encByte (keyByte key))) from rfl]
  rw [b64decode_b64encode _ hct]
  have hmapmap : ((pkcs7pad (s.data.map Char.toNat)).map
      (encByte (keyByte key))).map (decByte (keyByte key)) =
      pkcs7pad (s.data.map Char.toNat) := by
    rw [List.map_map]
    calc (pkcs7pad (s.data.map Char.toNat)).map
          (decByte (keyByte key) ∘ encByte (keyByte key))
        = (pkcs7pad (s.data.map Char.toNat)).map id :=
          List.map_congr_left (fun b hb => decByte_encByte _ _ (hpadded b hb))
      _ = pkcs7pad (s.data.map Char.toNat) := List.map_id _
  simp only [Option.some_bind]
  rw [hmapmap, pkcs7unpad_pkcs7pad]
  simp only [Option.map_some']
  rw [List.map_map]
  have hchars : s.data.map (Char.ofNat ∘ Char.toNat) = s.data := by
    calc s.data.map (Char.ofNat ∘ Char.toNat)
        = s.data.map id := List.map_congr_left (fun c _ => Char.ofNat_toNat c)
      _ = s.data := List.map_id _
  rw [hchars]

/-! ## `src/sentry/src/error.rs`

Only the error shape matters to the token path; variants that are
unreachable from `token.rs` (hashing, I/O wrappers) are omitted. -/

/-- Type `ErrorKind` from `src/sentry/src/error.rs`, token-path variants. -/
inductive ErrorKind
  | Message (msg : String)
  | Msg (msg : String)
  | FromFailure

/-- Type `Error` from `src/sentry/src/error.rs`: a context-wrapped kind. -/
structure Error where
  kind : ErrorKind

/-! ## `src/sentry/src/token.rs` -/

/-- Constant `ISS`: name of the issuer for the token generating service. -/
def ISS : String := "sessions"

/-- Constant `AUD`: client data used for audience identifier obfuscation. -/
def AUD : String := "email@example.com"

/-- Constant `KID`: path of the public key, consumed by a keyserver. -/
def KID : String := "sessions01/1569901546-public.der"

/-- Constant `REFRESH_LIFESPAN`: refresh-token lifespan in seconds. -/
def REFRESH_LIFESPAN : Int := 15 * 60

/-- Constant `NORMAL_LIFESPAN`: normal-token lifespan in seconds. -/
def NORMAL_LIFESPAN : Int := 60 * 60

/-- Constant `PKEY`: the private signing key, read from a binary `.der`
file shipped outside `src/`; opaque key material whose byte content no
claim depends on. -/
def PKEY : List Nat := [48, 130, 4, 190]

/-- Type `TokenType` enumerates the type of token: Normal or Refresh. -/
inductive TokenType
  | Normal
  | Refresh
deriving DecidableEq, Repr

/-- The `impl From<TokenType> for &'static str` in `token.rs`. -/
def TokenType.into_str : TokenType → String
  | TokenType.Normal => "Normal"
  | TokenType.Refresh => "Refresh"

/-- The `impl TryFrom<&str> for TokenType` in `token.rs`: compare against the
two serialized labels, in order, and reject anything else. -/
def TokenType.try_from (value : String) : Except String TokenType :=
  let normal := TokenType.into_str TokenType.Normal
  let refresh := TokenType.into_str TokenType.Refresh
  if value = normal then Except.ok TokenType.Normal
  else if value = refresh then Except.ok TokenType.Refresh
  else Except.error "Error while converting TokenType value to static string."

/-- Content of the `MASTER_ASAP_KEY : OnceCell<String>` static, as observed
by `OnceCell::get`: `none` while uninitialized. -/
abbrev MasterKeyCell := Option String

/-- Function `encrypt_aud_to_base64` from `token.rs`: look the master key up in the
cell, `unwrap()` it (result `none` models that panic on an empty cell), and
encrypt the client data to base64. -/
def encrypt_aud_to_base64 (master_asap_key : MasterKeyCell)
    (client_data : String) : Option String :=
  match master_asap_key with
  | none => none
  | some key => some (magic_encrypt_str_to_base64 key client_data)

/-- Function `decrypt_aud` from `token.rs`: look the master key up in the cell and
`unwrap()` it, then `unwrap()` the decryption result — so both an empty
cell and an invalid ciphertext panic (`none`); a valid ciphertext is
returned as `Ok`.  The `Err` branch of the declared `Result` type is
never produced. -/
def decrypt_aud (master_asap_key : MasterKeyCell)
    (audience_identifier : String) : Option (Except Error String) :=
  match master_asap_key with
  | none => none
  | some key =>
    match magic_decrypt_base64_to_string key audience_identifier with
    | none => none
    | some raw => some (Except.ok raw)

/-- Type `asap::claims::Aud` (external crate): one audience or many. -/
inductive Aud
  | one (audience : String)
  | many (audiences : List String)
deriving DecidableEq, Repr

/-- Type `asap::claims::ExtraClaims`: the token path only ever stores a single
string-valued binding, so a binding list stands in for the `HashMap`. -/
abbrev ExtraClaims := List (String × String)

/-- Function `default_aud` from `token.rs`: the encrypted client data as a
single-element audience. -/
def default_aud (master_asap_key : MasterKeyCell) (client_data : String) :
    Option Aud :=
  (encrypt_aud_to_base64 master_asap_key client_data).map Aud.one

/-- Function `set_token_type` from `token.rs`: an `ExtraClaims` map holding the
`"TokenType"` label of the variant. -/
def set_token_type (token_type : TokenType) : Option ExtraClaims :=
  match token_type with
  | TokenType.Normal =>
      some [("TokenType", TokenType.into_str TokenType.Normal)]
  | TokenType.Refresh =>
      some [("TokenType", TokenType.into_str TokenType.Refresh)]

/-- The claim set of a signed token (spec 3: issuer, key id, audience,
issued-at, expiry, extra claims). -/
structure Claims where
  iss : String
  kid : String
  aud : Aud
  iat : Int
  exp : Int
  extra : Option ExtraClaims
deriving DecidableEq, Repr

/-- Modelled from the spec: the asymmetric signature primitive the `asap`
crate delegates to (external; spec treats it as a standard black-box
primitive).  Any concrete function of key and claims serves: a corrupted
signature is one differing from `sign key claims`. -/
def sign (key : List Nat) (c : Claims) : Nat :=
  key.sum + 31 * c.iss.length + 127 * c.kid.length + c.iat.natAbs

/-- A signed token: claim set plus signature.  Stands for the compact
three-part string; serialization itself is the external crate's concern. -/
structure SignedToken where
  claims : Claims
  sig : Nat
deriving DecidableEq, Repr

/-- Modelled from the spec: `asap::generator::Generator` (external crate) —
issuer, key id, private key, and the configured maximum lifespan. -/
structure Generator where
  iss : String
  kid : String
  pkey : List Nat
  max_lifespan : Int
deriving DecidableEq, Repr

/-- Modelled from the spec: `Generator::new` (external crate). -/
def Generator.new (iss kid : String) (pkey : List Nat) : Generator :=
  { iss := iss, kid := kid, pkey := pkey, max_lifespan := NORMAL_LIFESPAN }

/-- Modelled from the spec: `Generator::set_max_lifespan` (external crate). -/
def Generator.set_max_lifespan (g : Generator) (lifespan : Int) : Generator :=
  { g with max_lifespan := lifespan }

/-- Modelled from the spec (4.3): `Generator::token` (external crate)
signs a claim set with `issuedAt = now` and
`expiresAt = issuedAt + lifetime`. -/
def Generator.token (g : Generator) (now : Int) (aud : Aud)
    (extra : Option ExtraClaims) : Except Error SignedToken :=
  let c : Claims :=
    { iss := g.iss, kid := g.kid, aud := aud, iat := now,
      exp := now + g.max_lifespan, extra := extra }
  Except.ok { claims := c, sig := sign g.pkey c }

/-- Function `generator_build` from `token.rs`. -/
def generator_build : Generator :=
  Generator.new ISS KID PKEY

/-- Function `generate_token` from `token.rs`: select the lifespan by token type and
issue a token whose audience is the encrypted client data and whose extra
claims carry the token type label.  The issuing time `now` is the ambient
clock the external generator reads; the outer `Option` models the panic
inside `encrypt_aud_to_base64` when the master key cell is empty. -/
def generate_token (master_asap_key : MasterKeyCell) (now : Int)
    (token_type : TokenType) (client_data : String) :
    Option (Except Error SignedToken) :=
  let generator := generator_build
  match token_type with
  | TokenType.Normal =>
    let generator := generator.set_max_lifespan NORMAL_LIFESPAN
    (default_aud master_asap_key client_data).map (fun aud =>
      generator.token now aud (set_token_type TokenType.Normal))
  | TokenType.Refresh =>
    let generator := generator.set_max_lifespan REFRESH_LIFESPAN
    (default_aud master_asap_key client_data).map (fun aud =>
      generator.token now aud (set_token_type TokenType.Refresh))

/-- Type `asap::validator::ValidatorBuilder` (external crate), as configured by
`Validator::builder(keyserver_uri, resource_server_audience)`. -/
structure ValidatorBuilder where
  keyserver_uri : String
  resource_server_audience : String
deriving DecidableEq, Repr

/-- Function `get_validator` from `token.rs`: encrypt the `AUD` constant and build a
validator expecting that ciphertext as the resource-server audience. -/
def get_validator (master_asap_key : MasterKeyCell) (keyserver_uri : String) :
    Option ValidatorBuilder :=
  (encrypt_aud_to_base64 master_asap_key AUD).map (fun audience_identifier =>
    { keyserver_uri := keyserver_uri,
      resource_server_audience := audience_identifier })

/-- Distinguishable rejection causes of token verification, ordered as the
spec orders the checks. -/
inductive VerifyFailure
  | KeyNotFound
  | BadSignature
  | Expired
  | AudienceMismatch
deriving DecidableEq, Repr

/-- Audience membership: does the audience claim contain this string? -/
def Aud.contains_aud (a : Aud) (x : String) : Bool :=
  match a with
  | Aud.one s => s == x
  | Aud.many l => l.contains x

/-- Modelled from the spec (4.4): verification by the `asap` crate
(external) — fetch the signer's public key from the keyserver by the
token's declared key id, check the signature first (fail closed), then
`now < expiresAt`, then that the audience set contains the validator's
own encrypted identity. -/
def ValidatorBuilder.verify (v : ValidatorBuilder)
    (keyserver : String → Option (List Nat)) (now : Int) (t : SignedToken) :
    Except VerifyFailure Claims :=
  match keyserver t.claims.kid with
  | none => Except.error VerifyFailure.KeyNotFound
  | some pubkey =>
    if t.sig ≠ sign pubkey t.claims then
      Except.error VerifyFailure.BadSignature
    else if ¬ (now < t.claims.exp) then
      Except.error VerifyFailure.Expired
    else if t.claims.aud.contains_aud v.resource_server_audience then
      Except.ok t.claims
    else
      Except.error VerifyFailure.AudienceMismatch

/-- Modelled from the spec: the keyserver holds, at `KID`, the verification
counterpart of `PKEY` (key distribution is an external black box; the
asymmetric pair is collapsed since the signature primitive is opaque). -/
def model_keyserver (kid : String) : Option (List Nat) :=
  if kid = KID then some PKEY else none

/-! ## `src/src/rate_limit.rs`

Modelled from the spec (4.5): the `leaky_bucket` filter delegates to the
external `ratelimit_meter` crate with the default policy — capacity 2,
refill 1 unit per second, a fresh key starting with a full bucket.  Token
amounts are scaled to thousandths of a unit so that time in milliseconds
refills one scaled unit per millisecond. -/

/-- Bucket capacity: 2 units, scaled. -/
def CAPACITY_MILLIS : Nat := 2000

/-- Cost of one admission: 1 unit, scaled. -/
def COST_MILLIS : Nat := 1000

/-- Outcome of an admission check (`Ok(())` or the rejection carrying
`wait_time_millis`, as in `RateLimitException`). -/
inductive RLDecision
  | Admit
  | Reject (wait_time_millis : Nat)
deriving DecidableEq, Repr

/-- Per-key bucket state (spec 3: available tokens and last refill time). -/
structure Bucket where
  available_millis : Nat
  last_refill_ms : Nat
deriving DecidableEq, Repr

/-- A first-seen key starts with a full bucket. -/
def Bucket.fresh (now_ms : Nat) : Bucket :=
  { available_millis := CAPACITY_MILLIS, last_refill_ms := now_ms }

/-- Modelled from the spec (4.5): refill by the elapsed time capped at
capacity; admit and consume one unit if at least one is available,
otherwise reject with the time until one unit becomes available. -/
def Bucket.check (b : Bucket) (now_ms : Nat) : RLDecision × Bucket :=
  let avail :=
    min CAPACITY_MILLIS (b.available_millis + (now_ms - b.last_refill_ms))
  if COST_MILLIS ≤ avail then
    (RLDecision.Admit,
      { available_millis := avail - COST_MILLIS, last_refill_ms := now_ms })
  else
    (RLDecision.Reject (COST_MILLIS - avail),
      { available_millis := avail, last_refill_ms := now_ms })

/-- Run a sequence of checks against one bucket at the given times. -/
def run_checks : Bucket → List Nat → List RLDecision
  | _, [] => []
  | b, t :: ts =>
    let r := b.check t
    r.1 :: run_checks r.2 ts

/-! ## Observations used by the claim statements -/

/-- Printable-ASCII test on a string (code points 32 to 126). -/
def printableAscii (s : String) : Bool :=
  s.data.all (fun c => 32 ≤ c.toNat && c.toNat ≤ 126)

/-- Observe `exp - iat` of a produced token, `none` on panic or issuing error. -/
def lifespan_of : Option (Except Error SignedToken) → Option Int
  | some (Except.ok t) => some (t.claims.exp - t.claims.iat)
  | _ => none

/-- Audience and extra claims of a produced token. -/
def aud_and_type_of :
    Option (Except Error SignedToken) → Option (Aud × Option ExtraClaims)
  | some (Except.ok t) => some (t.claims.aud, t.claims.extra)
  | _ => none

/-- Feed a freshly produced token to the validator built by
`get_validator`; `none` when either side panicked or failed to produce. -/
def verify_result (master_asap_key : MasterKeyCell) (uri : String)
    (keyserver : String → Option (List Nat)) (now : Int)
    (tok : Option (Except Error SignedToken)) :
    Option (Except VerifyFailure Claims) :=
  match get_validator master_asap_key uri, tok with
  | some v, some (Except.ok t) => some (v.verify keyserver now t)
  | _, _ => none

/-- Rejection cause of a verification outcome: `some none` for acceptance,
`some (some e)` for rejection with cause `e`. -/
def verdict_of :
    Option (Except VerifyFailure Claims) → Option (Option VerifyFailure)
  | some (Except.ok _) => some none
  | some (Except.error e) => some (some e)
  | none => none

/-- Corrupt a token's signature (any change; `+ 1` is one). -/
def corrupt_sig (t : SignedToken) : SignedToken :=
  { t with sig := t.sig + 1 }

/-- Bound on the characters of a printable-ASCII string. -/
theorem printableAscii_lt_256 (s : String) (hs : printableAscii s = true) :
    ∀ c ∈ s.data, c.toNat < 256 := by
  simp only [printableAscii] at hs
  intro c hc
  have h := List.all_eq_true.mp hs c hc
  simp only [Bool.and_eq_true, decide_eq_true_eq] at h
  omega

/-! ## Claims -/

/-- C1: for every printable ASCII string `s`, once the master key is
initialized, `decrypt_aud (encrypt_aud_to_base64 s)` returns `Ok s`:
decryption is a left inverse of encryption under the same master key. -/
theorem aud_encrypt_decrypt_roundtrip (k s : String)
    (hs : printableAscii s = true) :
    (encrypt_aud_to_base64 (some k) s).map (decrypt_aud (some k)) =
      some (some (Except.ok s)) := by
  have hbytes := printableAscii_lt_256 s hs
  simp [encrypt_aud_to_base64, decrypt_aud, magic_roundtrip k s hbytes]

/-- Witness for C1 at a concrete printable string. -/
theorem aud_encrypt_decrypt_roundtrip_witness :
    printableAscii "ab" = true ∧
    (encrypt_aud_to_base64 (some "key") "ab").map (decrypt_aud (some "key")) =
      some (some (Except.ok "ab")) :=
  ⟨by decide, aud_encrypt_decrypt_roundtrip "key" "ab" (by decide)⟩

/-- C2: for every client identity, a token produced by `generate_token`
with `TokenType.Normal` has decoded `exp - iat = 3600` seconds, and one
produced with `TokenType.Refresh` has `exp - iat = 900` seconds. -/
theorem generate_token_lifespans (k : String) (now : Int)
    (client_data : String) :
    lifespan_of (generate_token (some k) now TokenType.Normal client_data) =
      some 3600 ∧
    lifespan_of (generate_token (some k) now TokenType.Refresh client_data) =
      some 900 := by
  constructor
  · simp [generate_token, generator_build, Generator.new,
      Generator.set_max_lifespan, Generator.token, default_aud,
      encrypt_aud_to_base64, lifespan_of, NORMAL_LIFESPAN]
  · simp [generate_token, generator_build, Generator.new,
      Generator.set_max_lifespan, Generator.token, default_aud,
      encrypt_aud_to_base64, lifespan_of, REFRESH_LIFESPAN]

/-- C3: under the default leaky-bucket policy (capacity 2, refill 1 unit
per second), for a fresh key: two immediate checks admit, a third
immediate check rejects with a 1000 ms wait, and a check 1000 ms later
admits again. -/
theorem leaky_bucket_default_policy (t0 : Nat) :
    run_checks (Bucket.fresh t0) [t0, t0, t0, t0 + 1000] =
      [RLDecision.Admit, RLDecision.Admit, RLDecision.Reject 1000,
        RLDecision.Admit] := by
  simp [run_checks, Bucket.check, Bucket.fresh, CAPACITY_MILLIS, COST_MILLIS,
    Nat.sub_self]

/-- C7: for every token type and client identity, the token built by
`generate_token` carries the single-element audience
`Aud.one (encrypt_aud_to_base64 client_data)` and the extra claim
`"TokenType"` valued `"Normal"` or `"Refresh"` matching the variant. -/
theorem generate_token_claim_shape (k : String) (now : Int) (cd : String)
    (tt : TokenType) :
    aud_and_type_of (generate_token (some k) now tt cd) =
      (encrypt_aud_to_base64 (some k) cd).map (fun e =>
        (Aud.one e, some [("TokenType", TokenType.into_str tt)])) := by
  cases tt <;> rfl

/-- C8: `encrypt_aud_to_base64` is deterministic for a fixed key — the run
inside `get_validator` and the run inside `default_aud`/`generate_token`
produce the same ciphertext for the same seed, which is what lets the
validator match audiences by comparing ciphertexts. -/
theorem encrypt_deterministic_for_validator (k uri : String) (now : Int)
    (tt : TokenType) :
    (get_validator (some k) uri).map
        (fun v => Aud.one v.resource_server_audience) =
      default_aud (some k) AUD ∧
    aud_and_type_of (generate_token (some k) now tt AUD) =
      (get_validator (some k) uri).map (fun v =>
        (Aud.one v.resource_server_audience,
          some [("TokenType", TokenType.into_str tt)])) := by
  constructor
  · rfl
  · cases tt <;> rfl

/-- C9: `encrypt_aud_to_base64` and `decrypt_aud` presuppose an
initialized master key: on an empty `MASTER_ASAP_KEY` cell both panic on
the `unwrap()` of the key lookup (modelled as `none`) instead of
returning an error value. -/
theorem key_lookup_unwrap_panics_when_uninitialized (s : String) :
    encrypt_aud_to_base64 none s = none ∧ decrypt_aud none s = none :=
  ⟨rfl, rfl⟩

/-- C10: the serialized `TokenType` labels round-trip — `try_from` after
`into_str` is the identity, and `try_from` rejects every string other
than `"Normal"` and `"Refresh"` (full characterization). -/
theorem tokentype_label_roundtrip :
    (∀ t : TokenType,
      TokenType.try_from (TokenType.into_str t) = Except.ok t) ∧
    (∀ s : String, TokenType.try_from s =
      if s = "Normal" then Except.ok TokenType.Normal
      else if s = "Refresh" then Except.ok TokenType.Refresh
      else Except.error
        "Error while converting TokenType value to static string.") :=
  ⟨fun t => by cases t <;> rfl, fun s => rfl⟩

/-- C4: a token issued for the audience seed `AUD` verifies against the
validator `get_validator` builds for that same seed; a token issued for a
different printable seed passes signature and expiry but is rejected with
the non-signature cause `AudienceMismatch`; and a token whose signature
is corrupted is rejected as `BadSignature` even though its audience
matches — i.e. before audience inspection. -/
theorem token_validation_behaviour (k uri B : String) (now : Int)
    (hB : printableAscii B = true) (hne : B ≠ AUD) :
    verdict_of (verify_result (some k) uri model_keyserver now
      (generate_token (some k) now TokenType.Normal AUD)) = some none ∧
    verdict_of (verify_result (some k) uri model_keyserver now
      (generate_token (some k) now TokenType.Normal B)) =
      some (some VerifyFailure.AudienceMismatch) ∧
    verdict_of (verify_result (some k) uri model_keyserver now
      ((generate_token (some k) now TokenType.Normal AUD).map
        (Except.map corrupt_sig))) =
      some (some VerifyFailure.BadSignature) := by
  have hAUDb : ∀ c ∈ AUD.data, c.toNat < 256 := by decide
  have hBb := printableAscii_lt_256 B hB
  have henc : magic_encrypt_str_to_base64 k B ≠
      magic_encrypt_str_to_base64 k AUD := by
    intro h
    have h1 := magic_roundtrip k B hBb
    rw [h, magic_roundtrip k AUD hAUDb] at h1
    exact hne (Option.some.inj h1).symm
  refine ⟨?_, ?_, ?_⟩ <;>
    simp [verify_result, verdict_of, get_validator, generate_token,
      generator_build, Generator.new, Generator.set_max_lifespan,
      Generator.token, default_aud, encrypt_aud_to_base64,
      ValidatorBuilder.verify, model_keyserver, Aud.contains_aud,
      corrupt_sig, set_token_type, NORMAL_LIFESPAN, henc, Except.map,
      Nat.succ_ne_self]

/-- Witness for C4 at a concrete key, URI, mismatched seed, and time. -/
theorem token_validation_behaviour_witness :
    printableAscii "other" = true ∧ "other" ≠ AUD ∧
    (verdict_of (verify_result (some "key") "ks" model_keyserver 0
      (generate_token (some "key") 0 TokenType.Normal AUD)) = some none ∧
    verdict_of (verify_result (some "key") "ks" model_keyserver 0
      (generate_token (some "key") 0 TokenType.Normal "other")) =
      some (some VerifyFailure.AudienceMismatch) ∧
    verdict_of (verify_result (some "key") "ks" model_keyserver 0
      ((generate_token (some "key") 0 TokenType.Normal AUD).map
        (Except.map corrupt_sig))) =
      some (some VerifyFailure.BadSignature)) :=
  ⟨by decide, by decide,
    token_validation_behaviour "key" "ks" "other" 0 (by decide) (by decide)⟩

/-- C5: `decrypt_aud` does not return a `DecryptError` value on malformed
input — it panics: both a non-base64 input and a valid-base64 input whose
bytes are no valid ciphertext hit the `.unwrap()` of the failed
decryption (modelled as `none`). -/
theorem decrypt_aud_panics_on_invalid_ciphertext :
    decrypt_aud (some "key") "!!!" = none ∧
    decrypt_aud (some "key") "AAAA" = none :=
  ⟨rfl, rfl⟩

/-- C6: the per-request path can panic: `decrypt_aud`, applied to a
malformed per-request audience string with the master key initialized,
panics on `.unwrap()` instead of returning a typed error value. -/
theorem request_path_panic_reachable :
    decrypt_aud (some "masterkey") "%%%%" = none :=
  rfl

end Oxide
